import Mathlib

/-!
A shallow embedding of the SyncDog replication engine
(`src/syncdog/base_handler.py`, `src/syncdog/file_handler.py`,
`src/syncdog/mirror_handler.py`), together with theorems checking the
natural-language specification against it.

Paths are modelled as lists of components (the project targets Windows,
where `Path.parts` splits on the backslash).  The filesystem is an
association list from paths to nodes; a file node carries its size and a
`locked` flag modelling a file that raises `PermissionError` when opened
or copied.  Machine effects (mutation, exceptions) are made explicit:
every operation returns the filesystem and handler state reached so far,
a trace of the replication actions it performed, and an optional Python
exception that escaped it; effects performed before an exception persist,
exactly as in Python.
-/

set_option maxRecDepth 4000

namespace SyncDog

/-- One component of an absolute filesystem path (`pathlib.Path.parts`). -/
abbrev Path := List String

/-- `FileSystemEvents` from `src/syncdog/constants.py`. -/
inductive EventType
  | created
  | deleted
  | moved
  | modified
  | closed
  | closedNoWrite
  | opened
deriving DecidableEq, Repr

/-- A normalized watchdog event: kind, source path, destination path
(only meaningful for `moved`) and the directory flag. -/
structure Event where
  eventType : EventType
  src_path : Path
  dest_path : Path := []
  is_directory : Bool := false
deriving DecidableEq, Repr

/-- Python exceptions that the handler code distinguishes. -/
inductive Err
  | valueError
  | permissionError
  | fileNotFound
  | ioError
  | fileExists
  | typeError
deriving DecidableEq, Repr

/-- A filesystem node: a regular file with a byte size and a `locked` flag
(the file raises `PermissionError` on open/copy), or a directory. -/
inductive Node
  | file (size : Nat) (locked : Bool)
  | dir
deriving DecidableEq, Repr

/-- The filesystem: an association list from absolute paths to nodes. -/
structure FS where
  entries : List (Path × Node)
deriving DecidableEq, Repr

/-- Replication actions observable in a trace. -/
inductive Action
  | copyFile (src dst : Path)
  | patched (src dst : Path)
  | removedFile (p : Path)
  | removedTree (p : Path)
  | movedPath (src dst : Path)
  | timerStarted (et : EventType) (p : Path) (id : Nat)
deriving DecidableEq, Repr

/-- `root` is a lexical ancestor-or-self of `p` (component-wise). -/
def underRoot : Path → Path → Bool
  | [], _ => true
  | _ :: _, [] => false
  | a :: as, b :: bs => a = b && underRoot as bs

/-- `p.relative_to(root)`: strips the root components, `ValueError` when
`p` is not lexically under `root`. -/
def relative_to (p root : Path) : Except Err Path :=
  if underRoot root p then .ok (p.drop root.length) else .error .valueError

/-- First-match association lookup over the entry list. -/
def FS.lookupEntries : List (Path × Node) → Path → Option Node
  | [], _ => none
  | e :: rest, p => if e.1 = p then some e.2 else FS.lookupEntries rest p

def FS.lookup (fs : FS) (p : Path) : Option Node :=
  FS.lookupEntries fs.entries p

def FS.existsPath (fs : FS) (p : Path) : Bool :=
  (fs.lookup p).isSome

def FS.isFile (fs : FS) (p : Path) : Bool :=
  match fs.lookup p with
  | some (.file _ _) => true
  | _ => false

def FS.isDir (fs : FS) (p : Path) : Bool :=
  fs.lookup p = some .dir

/-- `stat().st_size` of an existing node: a file's size; 0 for a directory
(Windows reports 0 for directories).  Callers of `.stat()` guard
existence; `FS.stat` models the unguarded call. -/
def FS.statSize (fs : FS) (p : Path) : Nat :=
  match fs.lookup p with
  | some (.file sz _) => sz
  | _ => 0

/-- `.stat()` on a possibly missing path: `FileNotFoundError` when absent. -/
def FS.stat (fs : FS) (p : Path) : Except Err Nat :=
  match fs.lookup p with
  | none => .error .fileNotFound
  | some (.file sz _) => .ok sz
  | some .dir => .ok 0

/-- Drop every entry stored at exactly `p`. -/
def FS.eraseEntries : List (Path × Node) → Path → List (Path × Node)
  | [], _ => []
  | e :: rest, p =>
    if e.1 = p then FS.eraseEntries rest p else e :: FS.eraseEntries rest p

/-- Create or overwrite the node stored at `p`. -/
def FS.setEntry (fs : FS) (p : Path) (n : Node) : FS :=
  ⟨(p, n) :: FS.eraseEntries fs.entries p⟩

/-- `os.remove` / `Path.unlink`: drop the single entry at `p`. -/
def FS.removeEntry (fs : FS) (p : Path) : FS :=
  ⟨FS.eraseEntries fs.entries p⟩

/-- `shutil.rmtree`: drop `p` and everything beneath it. -/
def FS.removeTree (fs : FS) (p : Path) : FS :=
  ⟨fs.entries.filter (fun e => ¬ underRoot p e.1)⟩

/-- `Path.mkdir(parents=True, exist_ok=True)` as `pathlib` performs it:
an existing directory at the target succeeds immediately; an existing
file raises `FileExistsError`; otherwise the missing parents are created
first (effects before an exception persist).  The recursion on the
parent chain is fuelled by the path length, which always suffices. -/
def FS.mkdirAllAux : Nat → FS → Path → FS × Option Err
  | _, fs, [] => (fs, none)
  | 0, fs, _ :: _ => (fs, none)
  | fuel + 1, fs, a :: rest =>
    match fs.lookup (a :: rest) with
    | some .dir => (fs, none)
    | some (.file _ _) => (fs, some .fileExists)
    | none =>
      match FS.mkdirAllAux fuel fs (a :: rest).dropLast with
      | (fs2, some e) => (fs2, some e)
      | (fs2, none) => (fs2.setEntry (a :: rest) .dir, none)

def FS.mkdirAll (fs : FS) (p : Path) : FS × Option Err :=
  FS.mkdirAllAux p.length fs p

/-- `shutil.move(old, new)`: relocate the subtree at `old`.  When `new`
is an existing directory the source is moved inside it; moving onto an
existing file raises (Windows `os.rename` semantics); a missing source
raises `FileNotFoundError`. -/
def FS.relocate (fs : FS) (old new : Path) : FS :=
  ⟨fs.entries.map (fun e =>
    if underRoot old e.1 then (new ++ e.1.drop old.length, e.2) else e)⟩

def FS.move (fs : FS) (old new : Path) : FS × List Action × Option Err :=
  if ¬ fs.existsPath old then (fs, [], some .fileNotFound)
  else if fs.isDir new then
    let finalDest := new ++ [(old.getLast?).getD ""]
    (fs.relocate old finalDest, [.movedPath old finalDest], none)
  else if fs.existsPath new then (fs, [], some .fileExists)
  else (fs.relocate old new, [.movedPath old new], none)

/-- `get_file_size` (identical in `BaseHandler` and `FileHandler`): open
for read and seek to the end.  A missing path raises `FileNotFoundError`
(only `PermissionError` is caught); a locked file — and, on Windows, a
directory — hits the `PermissionError` branch and the function returns 0. -/
def get_file_size (fs : FS) (p : Path) : Except Err Nat :=
  match fs.lookup p with
  | none => .error .fileNotFound
  | some (.file sz locked) => .ok (if locked then 0 else sz)
  | some .dir => .ok 0

/-- Association-list helpers for the `copying_files` / `working_files`
and timer dictionaries: `del d[k]`, `d[k] = v` and `d.get(k)`. -/
def aerase {β : Type} : List (Path × β) → Path → List (Path × β)
  | [], _ => []
  | e :: rest, k => if e.1 = k then aerase rest k else e :: aerase rest k

def aset {β : Type} (l : List (Path × β)) (k : Path) (v : β) : List (Path × β) :=
  (k, v) :: aerase l k

def alookup {β : Type} : List (Path × β) → Path → Option β
  | [], _ => none
  | e :: rest, k => if e.1 = k then some e.2 else alookup rest k

/-- Python's `.with_suffix('.patch')`: replace the last component's
extension (a leading dot alone is not an extension). -/
def lastDotIdx (cs : List Char) : Option Nat :=
  ((cs.enum.filter (fun x => x.2 = '.')).map (·.1)).getLast?

def stemChars (cs : List Char) : List Char :=
  match lastDotIdx cs with
  | some i => if i = 0 then cs else cs.take i
  | none => cs

def withSuffixPatch (p : Path) : Path :=
  match p.getLast? with
  | none => p
  | some last => p.dropLast ++ [String.mk (stemChars last.toList ++ ".patch".toList)]

/-- `str.replace(str(source), '')` followed by `relative_to('\\')` in the
`rename` methods: when the source root occurs as the leading components
it is stripped; other occurrences of the root string mid-path are not
modelled (the handlers only receive paths under the watched root). -/
def stripRoot (source p : Path) : Path :=
  if underRoot source p then p.drop source.length else p

/-- `os.remove` / `Path.unlink`: unlink a file; a directory raises
(`PermissionError` on Windows), a missing path raises
`FileNotFoundError`.  The `locked` flag only models read-open denial, so
locked files unlink normally. -/
def os_remove (fs : FS) (p : Path) : FS × Option Err :=
  match fs.lookup p with
  | none => (fs, some .fileNotFound)
  | some .dir => (fs, some .permissionError)
  | some (.file _ _) => (fs.removeEntry p, none)

/-- `bsdiff4.file_diff(src_path=dest, dst_path=src, patch_path=diff)`:
reads both files and writes the patch.  The patch node records the size
of the target content so that applying it can reproduce that size. -/
def bsdiff_file_diff (fs : FS) (src dst patch : Path) : FS × Option Err :=
  match fs.lookup src, fs.lookup dst with
  | some (.file _ l1), some (.file s2 l2) =>
    if l1 || l2 then (fs, some .permissionError)
    else if ¬ fs.isDir patch.dropLast then (fs, some .ioError)
    else (fs.setEntry patch (.file s2 false), none)
  | _, _ => (fs, some .ioError)

/-- `bsdiff4.file_patch(src_path=dest, dst_path=dest, patch_path=diff)`:
rewrites `dest` in place with the content the patch encodes. -/
def bsdiff_file_patch (fs : FS) (dst patch : Path) : FS × Option Err :=
  match fs.lookup dst, fs.lookup patch with
  | some (.file _ l1), some (.file ps l2) =>
    if l1 || l2 then (fs, some .permissionError)
    else (fs.setEntry dst (.file ps false), none)
  | _, _ => (fs, some .ioError)

namespace FileHandler

/-- `FileHandler` mutable attributes (`src/syncdog/file_handler.py`):
the two roots, the sidecar path, the `copying_files` size table and the
`copying_timers` table.  A timer is modelled by a fresh identifier (drawn
from `nextTimer`) together with the event kind its callback was armed
with. -/
structure State where
  source : Option Path
  destination : Option Path
  patch_path : Option Path
  copying_files : List (Path × Nat)
  copying_timers : List (Path × (Nat × EventType))
  nextTimer : Nat
deriving DecidableEq, Repr

/-- `FileHandler.untrack_file_copy`: the `copying_files` entry is deleted
only when `dict.get` returns a truthy (nonzero) size; a timer object is
always truthy, so a present timer entry is cancelled and deleted. -/
def untrack_file_copy (st : State) (src_path : Path) : State :=
  let files :=
    if (alookup st.copying_files src_path).getD 0 ≠ 0
    then aerase st.copying_files src_path else st.copying_files
  let timers :=
    if (alookup st.copying_timers src_path).isSome
    then aerase st.copying_timers src_path else st.copying_timers
  { st with copying_files := files, copying_timers := timers }

/-- `FileHandler.start_copying_timer`: cancel any existing timer for the
path and arm a fresh one carrying `(event_type, src_path)`. -/
def start_copying_timer (st : State) (event_type : EventType) (src_path : Path) :
    State × List Action :=
  let timers := aset st.copying_timers src_path (st.nextTimer, event_type)
  ({ st with copying_timers := timers, nextTimer := st.nextTimer + 1 },
   [.timerStarted event_type src_path st.nextTimer])

/-- `FileHandler.track_file_copy`: record the current size and start the
debounce timer; a missing path is ignored. -/
def track_file_copy (fs : FS) (st : State) (event_type : EventType) (src_path : Path) :
    State × List Action × Option Err :=
  if ¬ fs.existsPath src_path then (st, [], none)
  else
    match get_file_size fs src_path with
    | .error e => (st, [], some e)
    | .ok sz =>
      let st := { st with copying_files := aset st.copying_files src_path sz }
      let (st, acts) := start_copying_timer st event_type src_path
      (st, acts, none)

/-- `FileHandler.copy_file`: map the path, create the destination's parent
directories, then `shutil.copy2`; a `PermissionError` from the copy is
re-raised, a successful copy untracks the source. -/
def copy_file (fs : FS) (st : State) (src_path : Path) :
    FS × State × List Action × Option Err :=
  match st.source, st.destination with
  | some source, some destination =>
    match relative_to src_path source with
    | .error e => (fs, st, [], some e)
    | .ok relative_path =>
      let destination_file := destination ++ relative_path
      match fs.mkdirAll destination_file.dropLast with
      | (fs, some e) => (fs, st, [], some e)
      | (fs, none) =>
        match fs.lookup src_path with
        | none => (fs, st, [], some .fileNotFound)
        | some .dir => (fs, st, [], some .permissionError)
        | some (.file sz locked) =>
          if locked then (fs, st, [], some .permissionError)
          else
            -- shutil.copy2 into an existing directory copies to its basename
            let target :=
              if fs.isDir destination_file
              then destination_file ++ [(src_path.getLast?).getD ""]
              else destination_file
            let fs := fs.setEntry target (.file sz false)
            let st := untrack_file_copy st src_path
            (fs, st, [.copyFile src_path target], none)
  | _, _ => (fs, st, [], some .typeError)

/-- `FileHandler.sync_file`: the whole body runs under
`except Exception`, so no exception escapes; effects performed before an
exception persist and the function simply returns. -/
def sync_file (fs : FS) (st : State) (src_path : Path) :
    FS × State × List Action × Option Err :=
  match st.source, st.destination, st.patch_path with
  | some source, some destination, some patch_path =>
    if ¬ fs.existsPath src_path then (fs, st, [], none)
    else
      match relative_to src_path source with
      | .error _ => (fs, st, [], none)
      | .ok relative_path =>
        let dest_file := destination ++ relative_path
        let diff_file := patch_path ++ withSuffixPatch relative_path
        if ¬ fs.existsPath dest_file then
          let (st, acts, _) := track_file_copy fs st .created src_path
          (fs, st, acts, none)
        else if fs.statSize dest_file > fs.statSize src_path then
          -- os.remove(dest_file): dest here is a plain file (a directory
          -- reports st_size 0 and cannot exceed the source size)
          let fs := fs.removeEntry dest_file
          if fs.existsPath diff_file then
            match os_remove fs diff_file with
            | (fs, some _) => (fs, st, [.removedFile dest_file], none)
            | (fs, none) =>
              let (st, acts, _) := track_file_copy fs st .created src_path
              (fs, st, .removedFile dest_file :: .removedFile diff_file :: acts, none)
          else
            let (st, acts, _) := track_file_copy fs st .created src_path
            (fs, st, .removedFile dest_file :: acts, none)
        else if fs.isDir src_path then
          let (fs, _) := fs.mkdirAll dest_file
          (fs, st, [], none)
        else
          match bsdiff_file_diff fs dest_file src_path diff_file with
          | (fs, some _) => (fs, st, [], none)
          | (fs, none) =>
            match bsdiff_file_patch fs dest_file diff_file with
            | (fs, some _) => (fs, st, [], none)
            | (fs, none) =>
              let st := untrack_file_copy st src_path
              (fs, st, [.patched src_path dest_file], none)
  | _, _, _ => (fs, st, [], none)

/-- `FileHandler.check_copying_complete` (the debounce-timer callback):
a vanished path returns immediately (the entry is left behind); equal
sizes dispatch the pending action (`created` → `copy_file` under
`contextlib.suppress(PermissionError)`, `modified` → `sync_file`);
differing sizes record the new size and re-arm the timer. -/
def check_copying_complete (fs : FS) (st : State) (event_type : EventType) (src_path : Path) :
    FS × State × List Action × Option Err :=
  if ¬ fs.existsPath src_path then (fs, st, [], none)
  else
    match get_file_size fs src_path with
    | .error e => (fs, st, [], some e)
    | .ok current_size =>
      let previous_size := (alookup st.copying_files src_path).getD 0
      if current_size = previous_size then
        if event_type = .created then
          match copy_file fs st src_path with
          | (fs, st, acts, some .permissionError) => (fs, st, acts, none)
          | r => r
        else if event_type = .modified then sync_file fs st src_path
        else (fs, st, [], none)
      else
        let st := { st with copying_files := aset st.copying_files src_path current_size }
        let (st, acts) := start_copying_timer st event_type src_path
        (fs, st, acts, none)

/-- `FileHandler.delete`: map the path under the destination and remove a
file or a directory tree there. -/
def delete (fs : FS) (st : State) (src_path : Path) :
    FS × State × List Action × Option Err :=
  match st.source, st.destination with
  | some source, some destination =>
    match relative_to src_path source with
    | .error e => (fs, st, [], some e)
    | .ok relative_path =>
      let destination := destination ++ relative_path
      if fs.isFile destination then
        (fs.removeEntry destination, st, [.removedFile destination], none)
      else if fs.isDir destination then
        (fs.removeTree destination, st, [.removedTree destination], none)
      else (fs, st, [], none)
  | _, _ => (fs, st, [], some .typeError)

/-- `FileHandler.rename`: strip the source root from both event paths and
`shutil.move` the mapped old destination to the mapped new one — with no
check whether the new destination already exists. -/
def rename (fs : FS) (st : State) (event : Event) :
    FS × State × List Action × Option Err :=
  match st.source, st.destination with
  | some source, some destination =>
    let src_path := stripRoot source event.src_path
    let dest_path := stripRoot source event.dest_path
    match fs.move (destination ++ src_path) (destination ++ dest_path) with
    | (fs, acts, e) => (fs, st, acts, e)
  | _, _ => (fs, st, [], some .typeError)

/-- The recursive tracking loop of `FileHandler.copy_directory`:
`get_files` yields the files below the created directory and each is
tracked in turn (an exception from tracking aborts the loop). -/
def trackAll (fs : FS) (st : State) (event_type : EventType) :
    List Path → State × List Action × Option Err
  | [] => (st, [], none)
  | p :: rest =>
    match track_file_copy fs st event_type p with
    | (st, acts, some e) => (st, acts, some e)
    | (st, acts, none) =>
      match trackAll fs st event_type rest with
      | (st, acts2, e) => (st, acts ++ acts2, e)

/-- `FileHandler.copy_directory`: create the mapped directory, then track
every file found below the source directory. -/
def copy_directory (fs : FS) (st : State) (event_type : EventType) (src_path : Path) :
    FS × State × List Action × Option Err :=
  match st.source, st.destination with
  | some source, some destination =>
    match relative_to src_path source with
    | .error e => (fs, st, [], some e)
    | .ok relative_path =>
      let destination_dir := destination ++ relative_path
      match fs.mkdirAll destination_dir with
      | (fs, some e) => (fs, st, [], some e)
      | (fs, none) =>
        let files := (fs.entries.filter
          (fun e => underRoot src_path e.1 && ¬ e.1 = src_path &&
            match e.2 with | .file _ _ => true | .dir => false)).map (·.1)
        match trackAll fs st event_type files with
        | (st, acts, e) => (fs, st, acts, e)
  | _, _ => (fs, st, [], some .typeError)

/-- `FileHandler.on_any_event`: unset roots and sidecar paths return
immediately; otherwise dispatch on the event kind.  A `modified` event on
a path tracked with a truthy size is dropped. -/
def on_any_event (fs : FS) (st : State) (event : Event) :
    FS × State × List Action × Option Err :=
  match st.source, st.destination with
  | some _, some _ =>
    let src_path := event.src_path
    if ".syncdog" ∈ src_path then (fs, st, [], none)
    else
      match event.eventType with
      | .created =>
        if event.is_directory then copy_directory fs st event.eventType src_path
        else
          match track_file_copy fs st event.eventType src_path with
          | (st, acts, e) => (fs, st, acts, e)
      | .deleted => delete fs st src_path
      | .moved => rename fs st event
      | .modified =>
        if (alookup st.copying_files src_path).getD 0 ≠ 0 then (fs, st, [], none)
        else
          match track_file_copy fs st event.eventType src_path with
          | (st, acts, e) => (fs, st, acts, e)
      | _ => (fs, st, [], none)
  | _, _ => (fs, st, [], none)

end FileHandler

namespace BaseHandler

/-- `BaseHandler` mutable attributes (`src/syncdog/base_handler.py`):
the `working_files` size table and the `working_timers` table.  The roots
and sidecar paths are passed to each method explicitly, as in the source. -/
structure State where
  working_files : List (Path × Nat)
  working_timers : List (Path × (Nat × EventType))
  nextTimer : Nat
deriving DecidableEq, Repr

/-- `BaseHandler.get_dest_path`: `dest / source_path.relative_to(source)`. -/
def get_dest_path (source source_path dest : Path) : Except Err Path :=
  match relative_to source_path source with
  | .error e => .error e
  | .ok rel => .ok (dest ++ rel)

/-- `BaseHandler.untrack_work_file`: same truthiness pattern as
`FileHandler.untrack_file_copy` — a zero recorded size leaves the
`working_files` entry in place. -/
def untrack_work_file (bst : State) (source_path : Path) : State :=
  let files :=
    if (alookup bst.working_files source_path).getD 0 ≠ 0
    then aerase bst.working_files source_path else bst.working_files
  let timers :=
    if (alookup bst.working_timers source_path).isSome
    then aerase bst.working_timers source_path else bst.working_timers
  { bst with working_files := files, working_timers := timers }

/-- `BaseHandler.start_working_timer`: cancel any existing timer for the
path and arm a fresh one; the callback is `create_complete` with the
captured `(event_type, source, source_path, dest, patch_path)`. -/
def start_working_timer (bst : State) (event_type : EventType)
    (source source_path dest : Path) (patch_path : Option Path) :
    State × List Action :=
  let timers := aset bst.working_timers source_path (bst.nextTimer, event_type)
  ({ bst with working_timers := timers, nextTimer := bst.nextTimer + 1 },
   [.timerStarted event_type source_path bst.nextTimer])

/-- `BaseHandler.track_work_file`: record the current size and start the
debounce timer; a missing path is ignored. -/
def track_work_file (fs : FS) (bst : State) (event_type : EventType)
    (source source_path dest : Path) (patch_path : Option Path) :
    State × List Action × Option Err :=
  if ¬ fs.existsPath source_path then (bst, [], none)
  else
    match get_file_size fs source_path with
    | .error e => (bst, [], some e)
    | .ok sz =>
      let bst := { bst with working_files := aset bst.working_files source_path sz }
      let (bst, acts) := start_working_timer bst event_type source source_path dest patch_path
      (bst, acts, none)

/-- `BaseHandler.create_file`: map the path, create the parent only when
it does not yet exist, then `shutil.copy2`; a `PermissionError` is
re-raised, a successful copy untracks the source. -/
def create_file (fs : FS) (bst : State) (source source_path dest : Path) :
    FS × State × List Action × Option Err :=
  match get_dest_path source source_path dest with
  | .error e => (fs, bst, [], some e)
  | .ok dest_path =>
    let step :=
      if ¬ fs.existsPath dest_path.dropLast then fs.mkdirAll dest_path.dropLast
      else (fs, none)
    match step with
    | (fs, some e) => (fs, bst, [], some e)
    | (fs, none) =>
      match fs.lookup source_path with
      | none => (fs, bst, [], some .fileNotFound)
      | some .dir => (fs, bst, [], some .permissionError)
      | some (.file sz locked) =>
        if locked then (fs, bst, [], some .permissionError)
        else
          -- shutil.copy2 into an existing directory copies to its basename
          let target :=
            if fs.isDir dest_path
            then dest_path ++ [(source_path.getLast?).getD ""]
            else dest_path
          let fs := fs.setEntry target (.file sz false)
          let bst := untrack_work_file bst source_path
          (fs, bst, [.copyFile source_path target], none)

/-- `BaseHandler.create_directory`: mkdir-all on the mapped path. -/
def create_directory (fs : FS) (source source_path dest : Path) : FS × Option Err :=
  match get_dest_path source source_path dest with
  | .error e => (fs, some e)
  | .ok dir => fs.mkdirAll dir

/-- `BaseHandler.delete`: an absent mapped destination is a no-op; a file
is unlinked, a directory removed recursively. -/
def delete (fs : FS) (source source_path dest : Path) :
    FS × List Action × Option Err :=
  match get_dest_path source source_path dest with
  | .error e => (fs, [], some e)
  | .ok dest_path =>
    if ¬ fs.existsPath dest_path then (fs, [], none)
    else if fs.isFile dest_path then
      (fs.removeEntry dest_path, [.removedFile dest_path], none)
    else if fs.isDir dest_path then
      (fs.removeTree dest_path, [.removedTree dest_path], none)
    else (fs, [], none)

/-- `BaseHandler.rename`: strip the source root from both event paths;
if the mapped new destination already exists, return without acting,
otherwise `shutil.move` the mapped old destination onto it. -/
def rename (fs : FS) (event : Event) (source dest : Path) :
    FS × List Action × Option Err :=
  let original_name := stripRoot source event.src_path
  let new_name := stripRoot source event.dest_path
  let dest_path := dest ++ new_name
  if fs.existsPath dest_path then (fs, [], none)
  else fs.move (dest ++ original_name) dest_path

/-- The `except` ladder at the end of `BaseHandler.sync_file`:
`PermissionError` passes, remaining `IOError`s recreate a missing sidecar
directory, any other exception is logged; every branch then falls
through to `start_working_timer('modified', ...)`. -/
def syncExcept (fs : FS) (bst : State) (source source_path dest : Path)
    (patch_path : Option Path) (e : Err) : FS × State × List Action × Option Err :=
  let fs :=
    match e, patch_path with
    | .ioError, some pp =>
      if ¬ fs.existsPath pp then (fs.mkdirAll pp).1 else fs
    | .fileNotFound, some pp =>
      if ¬ fs.existsPath pp then (fs.mkdirAll pp).1 else fs
    | .fileExists, some pp =>
      if ¬ fs.existsPath pp then (fs.mkdirAll pp).1 else fs
    | _, _ => fs
  let (bst, acts) := start_working_timer bst .modified source source_path dest patch_path
  (fs, bst, acts, none)

/-- `BaseHandler.sync_file`: a directory source mkdirs the mapped path; a
missing destination escalates to a `created` re-track; a destination
larger than the source is unlinked together with any stale sidecar patch
and then escalates to a `created` re-track; otherwise binary-diff and
patch in place, untracking both the source and the destination paths.
Exceptions are handled by `syncExcept`, which re-arms a `modified` timer. -/
def sync_file (fs : FS) (bst : State) (source source_path dest : Path)
    (patch_path : Option Path) : FS × State × List Action × Option Err :=
  if ¬ fs.existsPath source_path then (fs, bst, [], none)
  else
    match relative_to source_path source with
    | .error e => syncExcept fs bst source source_path dest patch_path e
    | .ok relative_path =>
      let dest_path := dest ++ relative_path
      match patch_path with
      | none =>
        -- `patch_path / ...` with None raises TypeError
        syncExcept fs bst source source_path dest none .typeError
      | some pp =>
        let diff_file := pp ++ withSuffixPatch relative_path
        if fs.isDir source_path then
          match fs.mkdirAll dest_path with
          | (fs, some e) => syncExcept fs bst source source_path dest patch_path e
          | (fs, none) => (fs, bst, [], none)
        else if ¬ fs.existsPath dest_path then
          let (bst, acts, _) :=
            track_work_file fs bst .created source source_path dest patch_path
          (fs, bst, acts, none)
        else if fs.statSize dest_path > fs.statSize source_path then
          -- dest_path.unlink(): dest here is a plain file (a directory
          -- reports st_size 0 and cannot exceed the source size)
          let fs := fs.removeEntry dest_path
          if fs.existsPath diff_file then
            match os_remove fs diff_file with
            | (fs, some e) => syncExcept fs bst source source_path dest patch_path e
            | (fs, none) =>
              let (bst, acts, _) :=
                track_work_file fs bst .created source source_path dest patch_path
              (fs, bst, .removedFile dest_path :: .removedFile diff_file :: acts, none)
          else
            let (bst, acts, _) :=
              track_work_file fs bst .created source source_path dest patch_path
            (fs, bst, .removedFile dest_path :: acts, none)
        else
          match bsdiff_file_diff fs dest_path source_path diff_file with
          | (fs, some e) => syncExcept fs bst source source_path dest patch_path e
          | (fs, none) =>
            match bsdiff_file_patch fs dest_path diff_file with
            | (fs, some e) => syncExcept fs bst source source_path dest patch_path e
            | (fs, none) =>
              let bst := untrack_work_file bst source_path
              let bst := untrack_work_file bst dest_path
              (fs, bst, [.patched source_path dest_path], none)

/-- `BaseHandler.create_complete` (the debounce-timer callback): a
vanished path returns immediately (the entry is left behind); equal
sizes dispatch the pending action (`created` → `create_file`, with a
`PermissionError` re-tracking the file; `modified` → `sync_file`);
differing sizes record the new size and re-arm the timer. -/
def create_complete (fs : FS) (bst : State) (event_type : EventType)
    (source source_path dest : Path) (patch_path : Option Path) :
    FS × State × List Action × Option Err :=
  if ¬ fs.existsPath source_path then (fs, bst, [], none)
  else
    match get_file_size fs source_path with
    | .error e => (fs, bst, [], some e)
    | .ok current_size =>
      let previous_size := (alookup bst.working_files source_path).getD 0
      if current_size = previous_size then
        if event_type = .created then
          match create_file fs bst source source_path dest with
          | (fs, bst, acts, some .permissionError) =>
            match track_work_file fs bst event_type source source_path dest patch_path with
            | (bst, acts2, e) => (fs, bst, acts ++ acts2, e)
          | r => r
        else if event_type = .modified then
          sync_file fs bst source source_path dest patch_path
        else (fs, bst, [], none)
      else
        let bst :=
          { bst with working_files := aset bst.working_files source_path current_size }
        let (bst, acts) :=
          start_working_timer bst event_type source source_path dest patch_path
        (fs, bst, acts, none)

end BaseHandler

namespace MirrorHandler

/-- `MirrorHandler` attributes (`src/syncdog/mirror_handler.py`): the two
watched roots with their sidecar paths, plus the inherited `BaseHandler`
dictionaries. -/
structure State where
  dir_a : Option Path
  dir_b : Option Path
  patch_path_a : Option Path
  patch_path_b : Option Path
  base : BaseHandler.State
deriving DecidableEq, Repr

/-- `MirrorHandler.get_directories`: an unset root raises `ValueError`;
a path lexically under `dir_a` (``relative_to`` succeeds — the resulting
`Path` is always truthy) selects `(dir_a, patch_path_b)`; every other
path, under `dir_b` or not, falls through to `(dir_b, patch_path_a)`. -/
def get_directories (mst : State) (path : Path) :
    Except Err (Path × Option Path) :=
  match mst.dir_a with
  | none => .error .valueError
  | some a =>
    match mst.dir_b with
    | none => .error .valueError
    | some b =>
      if underRoot a path then .ok (a, mst.patch_path_b)
      else .ok (b, mst.patch_path_a)

/-- `MirrorHandler.on_any_event`: unset roots return; sidecar paths
return; a `working_files` entry with a truthy size returns (and is left
in the table); otherwise the event is dispatched with the side-dependent
source, destination and sidecar. -/
def on_any_event (fs : FS) (mst : State) (event : Event) :
    FS × State × List Action × Option Err :=
  match mst.dir_a, mst.dir_b with
  | some dir_a, some dir_b =>
    let source_path := event.src_path
    if ".syncdog" ∈ source_path then (fs, mst, [], none)
    else if (alookup mst.base.working_files source_path).getD 0 ≠ 0 then
      (fs, mst, [], none)
    else
      match get_directories mst source_path with
      | .error e => (fs, mst, [], some e)
      | .ok (source, patch_path) =>
        let dest := if source = dir_a then dir_b else dir_a
        match event.eventType with
        | .created =>
          if event.is_directory then
            match BaseHandler.create_directory fs source source_path dest with
            | (fs, e) => (fs, mst, [], e)
          else
            match BaseHandler.track_work_file fs mst.base event.eventType
                source source_path dest patch_path with
            | (bst, acts, e) => (fs, { mst with base := bst }, acts, e)
        | .deleted =>
          match BaseHandler.delete fs source source_path dest with
          | (fs, acts, e) => (fs, mst, acts, e)
        | .moved =>
          match BaseHandler.rename fs event source dest with
          | (fs, acts, e) => (fs, mst, acts, e)
        | .modified =>
          if event.is_directory then (fs, mst, [], none)
          else
            match BaseHandler.get_dest_path source source_path dest with
            | .error e => (fs, mst, [], some e)
            | .ok dest_path =>
              if fs.existsPath dest_path then
                match fs.stat source_path with
                | .error e => (fs, mst, [], some e)
                | .ok src_size =>
                  if fs.statSize dest_path = src_size then (fs, mst, [], none)
                  else
                    -- suppression insert: record the destination we are
                    -- about to overwrite so its echo event is dropped
                    let wf := aset mst.base.working_files dest_path (fs.statSize dest_path)
                    let bst := { mst.base with working_files := wf }
                    match BaseHandler.track_work_file fs bst event.eventType
                        source source_path dest patch_path with
                    | (bst, acts, e) => (fs, { mst with base := bst }, acts, e)
              else
                match BaseHandler.track_work_file fs mst.base event.eventType
                    source source_path dest patch_path with
                | (bst, acts, e) => (fs, { mst with base := bst }, acts, e)
        | _ => (fs, mst, [], none)
  | _, _ => (fs, mst, [], none)

end MirrorHandler

/-! Concrete fixtures used to evaluate the model at specific inputs. -/

def fxSource : Path := ["C:", "src"]

def fxDest : Path := ["C:", "dst"]

def fxA : Path := ["C:", "src", "a"]

/-- A one-way handler state with both roots and the sidecar configured
and no tracked files. -/
def fxStEmpty : FileHandler.State :=
  ⟨some fxSource, some fxDest, some (fxDest ++ [".syncdog"]), [], [], 0⟩

/-- A mirror state with both roots configured and no tracked files. -/
def fxMstEmpty : MirrorHandler.State :=
  ⟨some ["A"], some ["B"], some ["A", ".syncdog"], some ["B", ".syncdog"],
   ⟨[], [], 0⟩⟩

/-- C1: an empty source file, tracked with recorded size 0, with a live
timer; the destination root exists. -/
def fx1fs : FS := ⟨[(fxA, .file 0 false), (fxDest, .dir)]⟩

def fx1st : FileHandler.State :=
  ⟨some fxSource, some fxDest, some (fxDest ++ [".syncdog"]),
   [(fxA, 0)], [(fxA, (0, .created))], 1⟩

/-- C2: a mirror state whose suppression table holds `A/x` with size 5. -/
def fx2mst : MirrorHandler.State :=
  ⟨some ["A"], some ["B"], some ["A", ".syncdog"], some ["B", ".syncdog"],
   ⟨[(["A", "x"], 5)], [], 0⟩⟩

def fx2ev : Event := { eventType := .created, src_path := ["A", "x"] }

/-- C5: a tracked path whose file has vanished before the timer fired. -/
def fx5st : FileHandler.State :=
  ⟨some fxSource, some fxDest, some (fxDest ++ [".syncdog"]),
   [(fxA, 5)], [(fxA, (0, .created))], 1⟩

/-- C6: the mapped new destination `C:/dst/y` already exists as a
directory; the mapped old destination `C:/dst/x` is a file. -/
def fx6fs : FS := ⟨[(["C:", "dst", "x"], .file 3 false), (["C:", "dst", "y"], .dir)]⟩

def fx6ev : Event :=
  { eventType := .moved, src_path := ["C:", "src", "x"], dest_path := ["C:", "src", "y"] }

/-- C7: an empty source file tracked with recorded size 0 — present in
the debounce table but with a falsy value. -/
def fx7fs : FS := ⟨[(fxA, .file 0 false)]⟩

def fx7st : FileHandler.State :=
  ⟨some fxSource, some fxDest, some (fxDest ++ [".syncdog"]),
   [(fxA, 0)], [(fxA, (0, .created))], 5⟩

def fx7ev : Event := { eventType := .modified, src_path := fxA }

def fxEmptyFS : FS := ⟨[]⟩

def fxBstEmpty : BaseHandler.State := ⟨[], [], 0⟩

/-- C5: a locked source file (its open raises `PermissionError`). -/
def fx5locked : FS := ⟨[(fxA, .file 7 true)]⟩

/-- C6: the mapped old destination exists, the mapped new one does not. -/
def fx6bfs : FS := ⟨[(["C:", "dst", "x"], .file 3 false)]⟩

/-- C8: the mapped directory `C:/dst/sub` already exists. -/
def fx8fs : FS := ⟨[(["C:", "dst", "sub"], .dir)]⟩

/-- C1 witness: a nonzero source file, stable at size 4, destination
root present. -/
def fx1wfs : FS := ⟨[(fxA, .file 4 false), (fxDest, .dir)]⟩

def fx1wst : FileHandler.State :=
  ⟨some fxSource, some fxDest, some (fxDest ++ [".syncdog"]),
   [(fxA, 4)], [(fxA, (0, .created))], 1⟩

/-- C4: a modified source whose mapped destination is missing. -/
def fx4afs : FS := ⟨[(fxA, .file 4 false)]⟩

/-- C4: a modified source (size 2) whose mapped destination is larger
(size 9), with a stale sidecar patch file present. -/
def fx4bfs : FS :=
  ⟨[(fxA, .file 2 false), (["C:", "dst", "a"], .file 9 false),
    (["C:", "dst", ".syncdog"], .dir),
    (["C:", "dst", ".syncdog", "a.patch"], .file 9 false)]⟩

def fx4st : FileHandler.State :=
  ⟨some fxSource, some fxDest, some (fxDest ++ [".syncdog"]), [], [], 0⟩

/-! Helper lemmas about the association lists, the lookup table and
`mkdirAll`. -/

theorem alookup_aerase {β : Type} (l : List (Path × β)) (k : Path) :
    alookup (aerase l k) k = none := by
  induction l with
  | nil => rfl
  | cons e rest ih =>
    by_cases h : e.1 = k <;> simp [aerase, alookup, h, ih]

theorem alookup_aerase_ne {β : Type} (l : List (Path × β)) (k q : Path)
    (h : ¬ q = k) : alookup (aerase l k) q = alookup l q := by
  have h' : ¬ k = q := fun hc => h hc.symm
  induction l with
  | nil => rfl
  | cons e rest ih =>
    by_cases he : e.1 = k
    · simp [aerase, alookup, he, h, h', ih]
    · by_cases hq : e.1 = q <;> simp [aerase, alookup, he, hq, h, h', ih]

theorem alookup_aset_self {β : Type} (l : List (Path × β)) (k : Path) (v : β) :
    alookup (aset l k v) k = some v := by
  simp [aset, alookup]

theorem lookupEntries_erase (l : List (Path × Node)) (p : Path) :
    FS.lookupEntries (FS.eraseEntries l p) p = none := by
  induction l with
  | nil => rfl
  | cons e rest ih =>
    by_cases h : e.1 = p <;> simp [FS.eraseEntries, FS.lookupEntries, h, ih]

theorem lookupEntries_erase_ne (l : List (Path × Node)) (p q : Path)
    (h : ¬ q = p) : FS.lookupEntries (FS.eraseEntries l p) q = FS.lookupEntries l q := by
  have h' : ¬ p = q := fun hc => h hc.symm
  induction l with
  | nil => rfl
  | cons e rest ih =>
    by_cases he : e.1 = p
    · simp [FS.eraseEntries, FS.lookupEntries, he, h, h', ih]
    · by_cases hq : e.1 = q <;>
        simp [FS.eraseEntries, FS.lookupEntries, he, hq, h, h', ih]

theorem lookup_setEntry_self (fs : FS) (p : Path) (n : Node) :
    (fs.setEntry p n).lookup p = some n := by
  simp [FS.setEntry, FS.lookup, FS.lookupEntries]

theorem lookup_setEntry_ne (fs : FS) (p : Path) (n : Node) (q : Path)
    (h : ¬ q = p) : (fs.setEntry p n).lookup q = fs.lookup q := by
  have : ¬ p = q := fun hc => h hc.symm
  simp [FS.setEntry, FS.lookup, FS.lookupEntries, this, lookupEntries_erase_ne _ _ _ h]

theorem lookup_removeEntry_self (fs : FS) (p : Path) :
    (fs.removeEntry p).lookup p = none := by
  simp [FS.removeEntry, FS.lookup, lookupEntries_erase]

theorem lookup_removeEntry_ne (fs : FS) (p q : Path) (h : ¬ q = p) :
    (fs.removeEntry p).lookup q = fs.lookup q := by
  simp [FS.removeEntry, FS.lookup, lookupEntries_erase_ne _ _ _ h]

theorem underRoot_refl (p : Path) : underRoot p p = true := by
  induction p with
  | nil => rfl
  | cons a as ih => simp [underRoot, ih]

theorem underRoot_length : ∀ {r q : Path}, underRoot r q = true → r.length ≤ q.length := by
  intro r
  induction r with
  | nil => intro q _; simp
  | cons a as ih =>
    intro q h
    cases q with
    | nil => simp [underRoot] at h
    | cons b bs =>
      simp only [underRoot, Bool.and_eq_true, decide_eq_true_eq] at h
      have := ih h.2
      simp only [List.length_cons]
      omega

theorem underRoot_dropLast : ∀ {q l : Path}, underRoot q l.dropLast = true →
    underRoot q l = true := by
  intro q
  induction q with
  | nil => intro l _; rfl
  | cons a as ih =>
    intro l h
    cases l with
    | nil => exact h
    | cons b bs =>
      cases bs with
      | nil => simp [underRoot] at h
      | cons c cs =>
        simp only [List.dropLast_cons₂, underRoot, Bool.and_eq_true,
          decide_eq_true_eq] at h ⊢
        exact ⟨h.1, ih h.2⟩

theorem not_underRoot_dropLast (a : String) (rest : Path) :
    underRoot (a :: rest) ((a :: rest).dropLast) = false := by
  cases hu : underRoot (a :: rest) ((a :: rest).dropLast) with
  | false => rfl
  | true =>
    have h1 := underRoot_length hu
    simp only [List.length_dropLast, List.length_cons] at h1
    omega

theorem mkdirAllAux_preserve : ∀ (n : Nat) (x : Path) (fs : FS) (q : Path) (m : Node),
    fs.lookup q = some m → ((FS.mkdirAllAux n fs x).1).lookup q = some m := by
  intro n
  induction n with
  | zero =>
    intro x fs q m h
    cases x <;> simpa [FS.mkdirAllAux] using h
  | succ n ih =>
    intro x fs q m h
    match x with
    | [] => simpa [FS.mkdirAllAux] using h
    | a :: rest =>
      cases hl : fs.lookup (a :: rest) with
      | some node =>
        cases node <;> simp [FS.mkdirAllAux, hl, h]
      | none =>
        rcases h2 : FS.mkdirAllAux n fs (a :: rest).dropLast with ⟨fs2, e2⟩
        have hq2 : fs2.lookup q = some m := by
          have h3 := ih (a :: rest).dropLast fs q m h
          rw [h2] at h3
          exact h3
        cases e2 with
        | some e => simp [FS.mkdirAllAux, hl, h2, hq2]
        | none =>
          have hne : ¬ q = (a :: rest) := by
            intro he
            rw [he, hl] at h
            cases h
          simp [FS.mkdirAllAux, hl, h2, lookup_setEntry_ne _ _ _ _ hne, hq2]

theorem mkdirAll_preserve (fs : FS) (x q : Path) (m : Node)
    (h : fs.lookup q = some m) : ((fs.mkdirAll x).1).lookup q = some m :=
  mkdirAllAux_preserve x.length x fs q m h

theorem mkdirAllAux_lookup_not_under : ∀ (n : Nat) (x : Path) (fs : FS) (q : Path),
    underRoot q x = false → ((FS.mkdirAllAux n fs x).1).lookup q = fs.lookup q := by
  intro n
  induction n with
  | zero =>
    intro x fs q _
    cases x <;> simp [FS.mkdirAllAux]
  | succ n ih =>
    intro x fs q hq
    match x with
    | [] => simp [FS.mkdirAllAux]
    | a :: rest =>
      cases hl : fs.lookup (a :: rest) with
      | some node => cases node <;> simp [FS.mkdirAllAux, hl]
      | none =>
        rcases h2 : FS.mkdirAllAux n fs (a :: rest).dropLast with ⟨fs2, e2⟩
        have hqd : underRoot q (a :: rest).dropLast = false := by
          cases hu : underRoot q (a :: rest).dropLast with
          | false => rfl
          | true => rw [underRoot_dropLast hu] at hq; cases hq
        have hq2 : fs2.lookup q = fs.lookup q := by
          have h3 := ih (a :: rest).dropLast fs q hqd
          rw [h2] at h3
          exact h3
        cases e2 with
        | some e => simp [FS.mkdirAllAux, hl, h2, hq2]
        | none =>
          have hne : ¬ q = (a :: rest) := by
            intro he
            rw [he, underRoot_refl] at hq
            cases hq
          simp [FS.mkdirAllAux, hl, h2, lookup_setEntry_ne _ _ _ _ hne, hq2]

theorem mkdirAll_lookup_not_under (fs : FS) (x q : Path)
    (h : underRoot q x = false) : ((fs.mkdirAll x).1).lookup q = fs.lookup q :=
  mkdirAllAux_lookup_not_under x.length x fs q h

theorem mkdirAllAux_idem : ∀ (n : Nat) (p : Path) (fs : FS),
    FS.mkdirAllAux n (FS.mkdirAllAux n fs p).1 p = FS.mkdirAllAux n fs p := by
  intro n
  induction n with
  | zero =>
    intro p fs
    cases p <;> simp [FS.mkdirAllAux]
  | succ n ih =>
    intro p fs
    match p with
    | [] => simp [FS.mkdirAllAux]
    | a :: rest =>
      cases hl : fs.lookup (a :: rest) with
      | some node => cases node <;> simp [FS.mkdirAllAux, hl]
      | none =>
        rcases h2 : FS.mkdirAllAux n fs (a :: rest).dropLast with ⟨fs2, e2⟩
        cases e2 with
        | some e =>
          have hl2 : fs2.lookup (a :: rest) = none := by
            have h3 := mkdirAllAux_lookup_not_under n (a :: rest).dropLast fs
              (a :: rest) (not_underRoot_dropLast a rest)
            rw [h2] at h3
            rw [h3]
            exact hl
          have hAgain : FS.mkdirAllAux n fs2 (a :: rest).dropLast = (fs2, some e) := by
            have h3 := ih (a :: rest).dropLast fs
            rw [h2] at h3
            exact h3
          simp [FS.mkdirAllAux, hl, h2, hl2, hAgain]
        | none =>
          simp [FS.mkdirAllAux, hl, h2, lookup_setEntry_self]

theorem mkdirAll_idem (fs : FS) (p : Path) :
    FS.mkdirAll (FS.mkdirAll fs p).1 p = FS.mkdirAll fs p :=
  mkdirAllAux_idem p.length p fs

/-! The claims. -/

/-- Claim C3: for every filesystem event whose source path contains the
sidecar directory name `.syncdog` as a path component, both the one-way
handler and the mirror handler return with no replication action, no
exception, and the filesystem and all tracking state unchanged. -/
theorem C3_sidecar_isolation (fs : FS) (st : FileHandler.State)
    (mst : MirrorHandler.State) (ev : Event)
    (h : ".syncdog" ∈ ev.src_path) :
    FileHandler.on_any_event fs st ev = (fs, st, [], none) ∧
    MirrorHandler.on_any_event fs mst ev = (fs, mst, [], none) := by
  constructor
  · cases hs : st.source <;> cases hd : st.destination <;>
      simp [FileHandler.on_any_event, hs, hd, h]
  · cases ha : mst.dir_a <;> cases hb : mst.dir_b <;>
      simp [MirrorHandler.on_any_event, ha, hb, h]

/-- Claim C3 witness at a concrete sidecar event. -/
theorem C3_witness :
    FileHandler.on_any_event fx1fs fxStEmpty
        { eventType := .created, src_path := ["C:", "src", ".syncdog", "f.patch"] } =
      (fx1fs, fxStEmpty, [], none) ∧
    MirrorHandler.on_any_event fx1fs fxMstEmpty
        { eventType := .created, src_path := ["C:", "src", ".syncdog", "f.patch"] } =
      (fx1fs, fxMstEmpty, [], none) :=
  C3_sidecar_isolation fx1fs fxStEmpty fxMstEmpty
    { eventType := .created, src_path := ["C:", "src", ".syncdog", "f.patch"] }
    (by decide)

/-- Claim C8: `create_directory` is idempotent — running it a second
time on the filesystem produced by the first run returns exactly the
first run's result — and when the mapped directory already exists it
succeeds without touching the filesystem or raising. -/
theorem C8_create_directory_idempotent (fs : FS) (source source_path dest : Path) :
    BaseHandler.create_directory
        (BaseHandler.create_directory fs source source_path dest).1
        source source_path dest =
      BaseHandler.create_directory fs source source_path dest ∧
    (∀ dir, BaseHandler.get_dest_path source source_path dest = .ok dir →
      fs.lookup dir = some .dir →
      BaseHandler.create_directory fs source source_path dest = (fs, none)) := by
  constructor
  · cases h : BaseHandler.get_dest_path source source_path dest with
    | error e => simp [BaseHandler.create_directory, h]
    | ok dir => simp [BaseHandler.create_directory, h, mkdirAll_idem]
  · intro dir h hdir
    cases dir with
    | nil => simp [BaseHandler.create_directory, h, FS.mkdirAll, FS.mkdirAllAux]
    | cons a rest =>
      simp [BaseHandler.create_directory, h, FS.mkdirAll, FS.mkdirAllAux, hdir]

/-- Claim C8 witness: creating `C:/dst/sub` when it already exists. -/
theorem C8_witness :
    BaseHandler.create_directory fx8fs fxSource ["C:", "src", "sub"] fxDest =
      (fx8fs, none) :=
  (C8_create_directory_idempotent fx8fs fxSource ["C:", "src", "sub"] fxDest).2
    ["C:", "dst", "sub"] (by rfl) (by rfl)

/-- Claim C9: the untrack procedures delete the size-table entry only
when the recorded size is truthy: a recorded size of 0 leaves the entry
in place, a nonzero recorded size removes it; an absent timer entry
leaves the timer table unchanged.  This holds for both
`BaseHandler.untrack_work_file` and `FileHandler.untrack_file_copy`, so
the entry-present-iff-action-scheduled invariant fails for empty files. -/
theorem C9_untrack_zero_size (bst : BaseHandler.State) (st : FileHandler.State) (p : Path) :
    (alookup bst.working_files p = some 0 →
      (BaseHandler.untrack_work_file bst p).working_files = bst.working_files) ∧
    (∀ n, alookup bst.working_files p = some n → n ≠ 0 →
      alookup (BaseHandler.untrack_work_file bst p).working_files p = none) ∧
    (alookup bst.working_timers p = none →
      (BaseHandler.untrack_work_file bst p).working_timers = bst.working_timers) ∧
    (alookup st.copying_files p = some 0 →
      (FileHandler.untrack_file_copy st p).copying_files = st.copying_files) ∧
    (∀ n, alookup st.copying_files p = some n → n ≠ 0 →
      alookup (FileHandler.untrack_file_copy st p).copying_files p = none) ∧
    (alookup st.copying_timers p = none →
      (FileHandler.untrack_file_copy st p).copying_timers = st.copying_timers) := by
  refine ⟨?_, ?_, ?_, ?_, ?_, ?_⟩
  · intro h; simp [BaseHandler.untrack_work_file, h]
  · intro n h hn; simp [BaseHandler.untrack_work_file, h, hn, alookup_aerase]
  · intro h; simp [BaseHandler.untrack_work_file, h]
  · intro h; simp [FileHandler.untrack_file_copy, h]
  · intro n h hn; simp [FileHandler.untrack_file_copy, h, hn, alookup_aerase]
  · intro h; simp [FileHandler.untrack_file_copy, h]

/-- Claim C9 witness: untracking a zero-size entry keeps it; untracking
a size-5 entry removes it. -/
theorem C9_witness :
    (BaseHandler.untrack_work_file ⟨[(fxA, 0)], [], 0⟩ fxA).working_files = [(fxA, 0)] ∧
    alookup (FileHandler.untrack_file_copy fx5st fxA).copying_files fxA = none :=
  ⟨(C9_untrack_zero_size ⟨[(fxA, 0)], [], 0⟩ fx5st fxA).1 rfl,
   (C9_untrack_zero_size ⟨[(fxA, 0)], [], 0⟩ fx5st fxA).2.2.2.2.1 5 rfl (by decide)⟩

/-- Claim C10: once both mirror roots are set, `get_directories` is
total: any path not lexically under `dir_a` — in particular a path under
neither root — yields `(dir_b, patch_path_a)` without raising. -/
theorem C10_get_directories_total (mst : MirrorHandler.State) (a b p : Path)
    (ha : mst.dir_a = some a) (hb : mst.dir_b = some b)
    (h : underRoot a p = false) :
    MirrorHandler.get_directories mst p = .ok (b, mst.patch_path_a) := by
  simp [MirrorHandler.get_directories, ha, hb, h]

/-- Claim C10 witness at a path under neither root. -/
theorem C10_witness :
    MirrorHandler.get_directories fx2mst ["C:", "elsewhere", "z"] =
      .ok (["B"], some ["A", ".syncdog"]) :=
  C10_get_directories_total fx2mst ["A"] ["B"] ["C:", "elsewhere", "z"]
    rfl rfl (by rfl)

/-- Claim C2 counterexample: the suppression entry for `A/x` (size 5) is
set; an event on `A/x` is dropped, but the handler returns with the
state completely unchanged — the entry is *not* removed, contradicting
the claim that the matching entry is cleared by the handler. -/
theorem C2_counterexample :
    alookup fx2mst.base.working_files ["A", "x"] = some 5 ∧
    MirrorHandler.on_any_event fxEmptyFS fx2mst fx2ev = (fxEmptyFS, fx2mst, [], none) := by
  constructor
  · rfl
  · rfl

/-- Claim C2 amended: an incoming mirror event whose source path has a
truthy `working_files` entry returns without dispatching any action and
without mutating any state — the suppression entry stays in the table
(it is cleared later by `sync_file`'s untrack calls, not by the event
handler). -/
theorem C2_suppression_drop_amended (fs : FS) (mst : MirrorHandler.State) (ev : Event)
    (a b : Path) (ha : mst.dir_a = some a) (hb : mst.dir_b = some b)
    (hside : ".syncdog" ∉ ev.src_path)
    (h : (alookup mst.base.working_files ev.src_path).getD 0 ≠ 0) :
    MirrorHandler.on_any_event fs mst ev = (fs, mst, [], none) := by
  simp [MirrorHandler.on_any_event, ha, hb, hside, h]

/-- Claim C2 witness at the concrete suppressed event. -/
theorem C2_witness :
    MirrorHandler.on_any_event fxEmptyFS fx2mst fx2ev = (fxEmptyFS, fx2mst, [], none) :=
  C2_suppression_drop_amended fxEmptyFS fx2mst fx2ev ["A"] ["B"]
    rfl rfl (by decide) (by decide)

/-- Claim C5 counterexample: the tracked file `C:/src/a` (recorded size
5) has vanished when the timer fires; the check returns with the state
unchanged, so the debounce entry is *not* removed, contradicting the
claim that the entry is dropped. -/
theorem C5_counterexample :
    fxEmptyFS.existsPath fxA = false ∧
    FileHandler.check_copying_complete fxEmptyFS fx5st .created fxA =
      (fxEmptyFS, fx5st, [], none) ∧
    alookup fx5st.copying_files fxA = some 5 := by
  refine ⟨rfl, rfl, rfl⟩

/-- Claim C5 amended: a permission/sharing error during size sampling
makes `get_file_size` report 0, so for an entry with a nonzero recorded
size the path is treated as still in flight — recorded size updated to
0, timer re-armed, nothing dispatched (with a recorded size of 0 the
sizes would compare equal and the pending action would dispatch
instead); and a path missing at timer fire returns with no dispatch but
leaves the debounce entry in the table. -/
theorem C5_size_sampling_amended (fs : FS) (st : FileHandler.State)
    (et : EventType) (p : Path) (sz m : Nat) :
    (fs.lookup p = some (.file sz true) →
      alookup st.copying_files p = some m → m ≠ 0 →
      (let r := FileHandler.check_copying_complete fs st et p
       r.1 = fs ∧ r.2.2.2 = none ∧
       r.2.2.1 = [.timerStarted et p st.nextTimer] ∧
       alookup r.2.1.copying_files p = some 0 ∧
       alookup r.2.1.copying_timers p = some (st.nextTimer, et))) ∧
    (fs.existsPath p = false →
      FileHandler.check_copying_complete fs st et p = (fs, st, [], none)) := by
  constructor
  · intro hf hm hmn
    have hzm : ¬ (0 = m) := fun hc => hmn hc.symm
    simp [FileHandler.check_copying_complete, FS.existsPath, hf, get_file_size,
      hm, hzm, FileHandler.start_copying_timer, aset, alookup]
  · intro h
    simp [FileHandler.check_copying_complete, h]

/-- Claim C5 witness: a locked file re-arms; a vanished file returns
with the entry left in place. -/
theorem C5_witness :
    (let r := FileHandler.check_copying_complete fx5locked fx5st .modified fxA
     r.1 = fx5locked ∧ r.2.2.2 = none ∧
     r.2.2.1 = [.timerStarted .modified fxA 1] ∧
     alookup r.2.1.copying_files fxA = some 0 ∧
     alookup r.2.1.copying_timers fxA = some (1, .modified)) ∧
    FileHandler.check_copying_complete fxEmptyFS fx5st .modified fxA =
      (fxEmptyFS, fx5st, [], none) :=
  ⟨(C5_size_sampling_amended fx5locked fx5st .modified fxA 7 5).1 rfl rfl (by decide),
   (C5_size_sampling_amended fxEmptyFS fx5st .modified fxA 0 0).2 rfl⟩

/-- Claim C6 counterexample: the mapped new destination `C:/dst/y`
already exists (as a directory).  `BaseHandler.rename` skips as the
claim states, but `FileHandler.rename` still acts: `shutil.move`
relocates `C:/dst/x` *into* the existing directory, changing the
filesystem — so the claim is false for the one-way handler's rename. -/
theorem C6_counterexample :
    fx6fs.existsPath (fxDest ++ stripRoot fxSource fx6ev.dest_path) = true ∧
    BaseHandler.rename fx6fs fx6ev fxSource fxDest = (fx6fs, [], none) ∧
    (FileHandler.rename fx6fs fxStEmpty fx6ev).1.lookup ["C:", "dst", "y", "x"] =
      some (.file 3 false) ∧
    ¬ (FileHandler.rename fx6fs fxStEmpty fx6ev).1 = fx6fs := by
  refine ⟨rfl, rfl, rfl, by decide⟩

/-- Claim C6 amended: `BaseHandler.rename` (used by the mirror handler)
first checks the mapped new destination — skipping when it exists and
moving otherwise — while `FileHandler.rename` performs the move
unconditionally, with no existence check. -/
theorem C6_rename_amended (fs : FS) (st : FileHandler.State) (ev : Event)
    (source dest : Path) (hs : st.source = some source)
    (hd : st.destination = some dest) :
    (fs.existsPath (dest ++ stripRoot source ev.dest_path) = true →
      BaseHandler.rename fs ev source dest = (fs, [], none)) ∧
    (fs.existsPath (dest ++ stripRoot source ev.dest_path) = false →
      BaseHandler.rename fs ev source dest =
        fs.move (dest ++ stripRoot source ev.src_path)
          (dest ++ stripRoot source ev.dest_path)) ∧
    (FileHandler.rename fs st ev =
      ((fs.move (dest ++ stripRoot source ev.src_path)
          (dest ++ stripRoot source ev.dest_path)).1, st,
       (fs.move (dest ++ stripRoot source ev.src_path)
          (dest ++ stripRoot source ev.dest_path)).2.1,
       (fs.move (dest ++ stripRoot source ev.src_path)
          (dest ++ stripRoot source ev.dest_path)).2.2)) := by
  refine ⟨?_, ?_, ?_⟩
  · intro h; simp [BaseHandler.rename, h]
  · intro h; simp [BaseHandler.rename, h]
  · simp [FileHandler.rename, hs, hd]

/-- Claim C6 witness: a skipped base rename, a performed base rename,
and the unconditional one-way rename, at concrete inputs. -/
theorem C6_witness :
    (BaseHandler.rename fx6fs fx6ev fxSource fxDest = (fx6fs, [], none)) ∧
    (BaseHandler.rename fx6bfs fx6ev fxSource fxDest =
      fx6bfs.move ["C:", "dst", "x"] ["C:", "dst", "y"]) ∧
    (FileHandler.rename fx6fs fxStEmpty fx6ev =
      ((fx6fs.move ["C:", "dst", "x"] ["C:", "dst", "y"]).1, fxStEmpty,
       (fx6fs.move ["C:", "dst", "x"] ["C:", "dst", "y"]).2.1,
       (fx6fs.move ["C:", "dst", "x"] ["C:", "dst", "y"]).2.2)) :=
  ⟨(C6_rename_amended fx6fs fxStEmpty fx6ev fxSource fxDest rfl rfl).1 rfl,
   (C6_rename_amended fx6bfs fxStEmpty fx6ev fxSource fxDest rfl rfl).2.1 rfl,
   (C6_rename_amended fx6fs fxStEmpty fx6ev fxSource fxDest rfl rfl).2.2⟩

/-- Claim C7 counterexample: `C:/src/a` is already tracked — the
debounce entry is present, with recorded size 0 — yet a `modified`
event is not a no-op: the handler re-tracks the file and starts a fresh
timer (timer id 5 is armed and `nextTimer` advances to 6). -/
theorem C7_counterexample :
    alookup fx7st.copying_files fxA = some 0 ∧
    (FileHandler.on_any_event fx7fs fx7st fx7ev).2.1.nextTimer = 6 ∧
    (FileHandler.on_any_event fx7fs fx7st fx7ev).2.2.1 =
      [.timerStarted .modified fxA 5] := by
  refine ⟨rfl, rfl, rfl⟩

/-- Claim C7 amended: a `modified` event on a path tracked with a
*nonzero* recorded size is a complete no-op for the one-way handler —
no state mutation, no new timer, no action (a zero recorded size is
falsy and re-tracks instead). -/
theorem C7_modified_tracked_noop_amended (fs : FS) (st : FileHandler.State)
    (ev : Event) (s d : Path) (hs : st.source = some s)
    (hd : st.destination = some d) (het : ev.eventType = .modified)
    (hside : ".syncdog" ∉ ev.src_path)
    (h : (alookup st.copying_files ev.src_path).getD 0 ≠ 0) :
    FileHandler.on_any_event fs st ev = (fs, st, [], none) := by
  simp [FileHandler.on_any_event, hs, hd, het, hside, h]

/-- Claim C7 witness: a modified event on a path tracked with size 5. -/
theorem C7_witness :
    FileHandler.on_any_event fxEmptyFS fx5st fx7ev = (fxEmptyFS, fx5st, [], none) :=
  C7_modified_tracked_noop_amended fxEmptyFS fx5st fx7ev fxSource fxDest
    rfl rfl rfl (by decide) (by decide)

/-- Claim C1 counterexample: the empty file `C:/src/a` is stable with
recorded size 0; the timer fires, the copy dispatches successfully
(`copyFile` in the trace, no exception) — yet the debounce entry is
*not* removed from `copying_files`, because `untrack_file_copy` treats
the recorded size 0 as falsy. -/
theorem C1_counterexample :
    (FileHandler.check_copying_complete fx1fs fx1st .created fxA).2.2.2 = none ∧
    (FileHandler.check_copying_complete fx1fs fx1st .created fxA).2.2.1 =
      [.copyFile fxA ["C:", "dst", "a"]] ∧
    alookup (FileHandler.check_copying_complete fx1fs fx1st .created fxA).2.1.copying_files
      fxA = some 0 := by
  refine ⟨rfl, rfl, rfl⟩

/-- Claim C1 amended: when the stability timer fires and the sampled
size equals the recorded size, the pending kind determines the action —
`created` performs the file copy, `modified` is exactly a `sync_file`
dispatch — and on successful dispatch the untrack step removes the
debounce entry when its recorded size is nonzero (a recorded size of 0
leaves the entry in place). -/
theorem C1_stable_dispatch_amended (fs : FS) (st : FileHandler.State)
    (source destination p rel : Path) (sz : Nat)
    (hs : st.source = some source) (hd : st.destination = some destination)
    (hrel : relative_to p source = .ok rel)
    (hfile : fs.lookup p = some (.file sz false))
    (hprev : alookup st.copying_files p = some sz)
    (hmk : (fs.mkdirAll (destination ++ rel).dropLast).2 = none)
    (hnd : ((fs.mkdirAll (destination ++ rel).dropLast).1).isDir (destination ++ rel) = false) :
    (let r := FileHandler.check_copying_complete fs st .created p
     r.2.2.2 = none ∧
     r.2.2.1 = [.copyFile p (destination ++ rel)] ∧
     r.1.lookup (destination ++ rel) = some (.file sz false) ∧
     (sz ≠ 0 → alookup r.2.1.copying_files p = none) ∧
     (sz = 0 → alookup r.2.1.copying_files p = some 0)) ∧
    FileHandler.check_copying_complete fs st .modified p = FileHandler.sync_file fs st p := by
  have hex : fs.existsPath p = true := by simp [FS.existsPath, hfile]
  have hsz : get_file_size fs p = .ok sz := by simp [get_file_size, hfile]
  rcases hm : fs.mkdirAll (destination ++ rel).dropLast with ⟨fs2, e2⟩
  rw [hm] at hmk hnd
  cases e2 with
  | some e => exact absurd hmk (by simp)
  | none =>
    have hf2 : fs2.lookup p = some (.file sz false) := by
      have h := mkdirAll_preserve fs (destination ++ rel).dropLast p _ hfile
      rw [hm] at h
      exact h
    have hcopy : FileHandler.copy_file fs st p =
        (fs2.setEntry (destination ++ rel) (.file sz false),
         FileHandler.untrack_file_copy st p,
         [.copyFile p (destination ++ rel)], none) := by
      simp [FileHandler.copy_file, hs, hd, hrel, hm, hf2, hnd]
    constructor
    · simp only [FileHandler.check_copying_complete, hex, hsz, hprev, hcopy]
      refine ⟨by simp, by simp, by simp [lookup_setEntry_self], ?_, ?_⟩
      · intro hnz
        simp [FileHandler.untrack_file_copy, hprev, hnz, alookup_aerase]
      · intro hz
        subst hz
        simp [FileHandler.untrack_file_copy, hprev]
    · simp [FileHandler.check_copying_complete, hex, hsz, hprev]

/-- Claim C4: for a modified file whose mapped destination is missing,
`sync_file` escalates to a `created` re-track (leading to `create_file`
at the next stable tick); and when the destination is strictly larger
than the source, it deletes the destination file and any stale sidecar
`.patch` file and then escalates to a `created` re-track instead of
patching.  Proved for both `BaseHandler.sync_file` and
`FileHandler.sync_file`. -/
theorem C4_patch_escalation (fs : FS) (bst : BaseHandler.State) (st : FileHandler.State)
    (source dest pp source_path rel : Path) (ssz : Nat)
    (hs : st.source = some source) (hd : st.destination = some dest)
    (hp : st.patch_path = some pp)
    (hrel : relative_to source_path source = .ok rel)
    (hfile : fs.lookup source_path = some (.file ssz false)) :
    (fs.existsPath (dest ++ rel) = false →
      (let r := BaseHandler.sync_file fs bst source source_path dest (some pp)
       r.1 = fs ∧ r.2.2.2 = none ∧
       alookup r.2.1.working_files source_path = some ssz ∧
       alookup r.2.1.working_timers source_path = some (bst.nextTimer, .created) ∧
       r.2.2.1 = [.timerStarted .created source_path bst.nextTimer]) ∧
      (let r := FileHandler.sync_file fs st source_path
       r.1 = fs ∧ r.2.2.2 = none ∧
       alookup r.2.1.copying_files source_path = some ssz ∧
       alookup r.2.1.copying_timers source_path = some (st.nextTimer, .created) ∧
       r.2.2.1 = [.timerStarted .created source_path st.nextTimer])) ∧
    (∀ dsz dl, fs.lookup (dest ++ rel) = some (.file dsz dl) → ssz < dsz →
      fs.lookup (pp ++ withSuffixPatch rel) ≠ some .dir →
      ¬ (pp ++ withSuffixPatch rel) = dest ++ rel →
      ¬ source_path = dest ++ rel →
      ¬ source_path = pp ++ withSuffixPatch rel →
      (let r := BaseHandler.sync_file fs bst source source_path dest (some pp)
       r.1.lookup (dest ++ rel) = none ∧
       r.1.lookup (pp ++ withSuffixPatch rel) = none ∧
       r.2.2.2 = none ∧
       alookup r.2.1.working_files source_path = some ssz ∧
       alookup r.2.1.working_timers source_path = some (bst.nextTimer, .created) ∧
       Action.removedFile (dest ++ rel) ∈ r.2.2.1 ∧
       Action.timerStarted .created source_path bst.nextTimer ∈ r.2.2.1) ∧
      (let r := FileHandler.sync_file fs st source_path
       r.1.lookup (dest ++ rel) = none ∧
       r.1.lookup (pp ++ withSuffixPatch rel) = none ∧
       r.2.2.2 = none ∧
       alookup r.2.1.copying_files source_path = some ssz ∧
       alookup r.2.1.copying_timers source_path = some (st.nextTimer, .created) ∧
       Action.removedFile (dest ++ rel) ∈ r.2.2.1 ∧
       Action.timerStarted .created source_path st.nextTimer ∈ r.2.2.1)) := by
  have hexs : fs.existsPath source_path = true := by simp [FS.existsPath, hfile]
  have hsdir : fs.isDir source_path = false := by simp [FS.isDir, hfile]
  have hsize : fs.statSize source_path = ssz := by simp [FS.statSize, hfile]
  have hgfs : get_file_size fs source_path = .ok ssz := by simp [get_file_size, hfile]
  constructor
  · intro h1
    have hlk1 : fs.lookup (dest ++ rel) = none := by
      cases hv : fs.lookup (dest ++ rel) with
      | none => rfl
      | some v => rw [FS.existsPath, hv] at h1; simp at h1
    constructor
    · simp [BaseHandler.sync_file, hexs, hrel, hsdir, h1, hlk1, hgfs,
        BaseHandler.track_work_file, BaseHandler.start_working_timer,
        aset, alookup, hfile, FS.existsPath]
    · simp [FileHandler.sync_file, hs, hd, hp, hexs, hrel, hsdir, h1, hlk1, hgfs,
        FileHandler.track_file_copy, FileHandler.start_copying_timer,
        aset, alookup, hfile, FS.existsPath]
  · intro dsz dl h2 hgt hdnd hneqd hnes hnesd
    have hexd : fs.existsPath (dest ++ rel) = true := by simp [FS.existsPath, h2]
    have hdsz : fs.statSize (dest ++ rel) = dsz := by simp [FS.statSize, h2]
    have hdf1 : (fs.removeEntry (dest ++ rel)).lookup (pp ++ withSuffixPatch rel) =
        fs.lookup (pp ++ withSuffixPatch rel) :=
      lookup_removeEntry_ne fs (dest ++ rel) (pp ++ withSuffixPatch rel) hneqd
    have hsrc1 : (fs.removeEntry (dest ++ rel)).lookup source_path =
        some (.file ssz false) := by
      rw [lookup_removeEntry_ne fs (dest ++ rel) source_path hnes, hfile]
    have hnds : ¬ (dest ++ rel) = pp ++ withSuffixPatch rel :=
      fun hc => hneqd hc.symm
    cases hdf : fs.lookup (pp ++ withSuffixPatch rel) with
    | none =>
      have hdf1n : (fs.removeEntry (dest ++ rel)).lookup (pp ++ withSuffixPatch rel) =
          none := by rw [hdf1, hdf]
      have hgfs1 : get_file_size (fs.removeEntry (dest ++ rel)) source_path = .ok ssz := by
        simp [get_file_size, hsrc1]
      constructor
      · simp [BaseHandler.sync_file, hexs, hrel, hsdir, hexd, hdsz, hsize, hgt,
          FS.existsPath, hdf1n, hsrc1, hgfs1, BaseHandler.track_work_file,
          BaseHandler.start_working_timer, aset, alookup,
          lookup_removeEntry_self, hdf1, hdf, hfile, h2]
      · simp [FileHandler.sync_file, hs, hd, hp, hexs, hrel, hsdir, hexd, hdsz,
          hsize, hgt, FS.existsPath, hdf1n, hsrc1, hgfs1,
          FileHandler.track_file_copy, FileHandler.start_copying_timer,
          aset, alookup, lookup_removeEntry_self, hdf1, hdf, hfile, h2]
    | some nd =>
      cases nd with
      | dir => exact absurd hdf hdnd
      | file a b =>
        have hdf1s : (fs.removeEntry (dest ++ rel)).lookup (pp ++ withSuffixPatch rel) =
            some (.file a b) := by rw [hdf1, hdf]
        have hsrc2 : ((fs.removeEntry (dest ++ rel)).removeEntry
            (pp ++ withSuffixPatch rel)).lookup source_path = some (.file ssz false) := by
          rw [lookup_removeEntry_ne _ (pp ++ withSuffixPatch rel) source_path hnesd, hsrc1]
        have hgfs2 : get_file_size ((fs.removeEntry (dest ++ rel)).removeEntry
            (pp ++ withSuffixPatch rel)) source_path = .ok ssz := by
          simp [get_file_size, hsrc2]
        have hdest2 : ((fs.removeEntry (dest ++ rel)).removeEntry
            (pp ++ withSuffixPatch rel)).lookup (dest ++ rel) = none := by
          rw [lookup_removeEntry_ne _ (pp ++ withSuffixPatch rel) (dest ++ rel) hnds,
            lookup_removeEntry_self]
        constructor
        · simp [BaseHandler.sync_file, hexs, hrel, hsdir, hexd, hdsz, hsize, hgt,
            FS.existsPath, hdf1s, hsrc2, hgfs2, os_remove,
            BaseHandler.track_work_file, BaseHandler.start_working_timer,
            aset, alookup, lookup_removeEntry_self, hdest2, hfile, h2, hdf1]
        · simp [FileHandler.sync_file, hs, hd, hp, hexs, hrel, hsdir, hexd, hdsz,
            hsize, hgt, FS.existsPath, hdf1s, hsrc2, hgfs2, os_remove,
            FileHandler.track_file_copy, FileHandler.start_copying_timer,
            aset, alookup, lookup_removeEntry_self, hdest2, hfile, h2, hdf1]

/-- Claim C4 witness: a missing destination and a larger destination, at
concrete inputs, for both handlers. -/
theorem C4_witness :
    ((let r := BaseHandler.sync_file fx4afs fxBstEmpty fxSource fxA fxDest
        (some ["C:", "dst", ".syncdog"])
      r.1 = fx4afs ∧ r.2.2.2 = none ∧
      alookup r.2.1.working_files fxA = some 4 ∧
      alookup r.2.1.working_timers fxA = some (0, .created) ∧
      r.2.2.1 = [.timerStarted .created fxA 0]) ∧
     (let r := FileHandler.sync_file fx4afs fx4st fxA
      r.1 = fx4afs ∧ r.2.2.2 = none ∧
      alookup r.2.1.copying_files fxA = some 4 ∧
      alookup r.2.1.copying_timers fxA = some (0, .created) ∧
      r.2.2.1 = [.timerStarted .created fxA 0])) ∧
    ((let r := BaseHandler.sync_file fx4bfs fxBstEmpty fxSource fxA fxDest
        (some ["C:", "dst", ".syncdog"])
      r.1.lookup ["C:", "dst", "a"] = none ∧
      r.1.lookup ["C:", "dst", ".syncdog", "a.patch"] = none ∧
      r.2.2.2 = none ∧
      alookup r.2.1.working_files fxA = some 2 ∧
      alookup r.2.1.working_timers fxA = some (0, .created) ∧
      Action.removedFile ["C:", "dst", "a"] ∈ r.2.2.1 ∧
      Action.timerStarted .created fxA 0 ∈ r.2.2.1) ∧
     (let r := FileHandler.sync_file fx4bfs fx4st fxA
      r.1.lookup ["C:", "dst", "a"] = none ∧
      r.1.lookup ["C:", "dst", ".syncdog", "a.patch"] = none ∧
      r.2.2.2 = none ∧
      alookup r.2.1.copying_files fxA = some 2 ∧
      alookup r.2.1.copying_timers fxA = some (0, .created) ∧
      Action.removedFile ["C:", "dst", "a"] ∈ r.2.2.1 ∧
      Action.timerStarted .created fxA 0 ∈ r.2.2.1)) :=
  ⟨(C4_patch_escalation fx4afs fxBstEmpty fx4st fxSource fxDest
      ["C:", "dst", ".syncdog"] fxA ["a"] 4 rfl rfl rfl rfl rfl).1 rfl,
   (C4_patch_escalation fx4bfs fxBstEmpty fx4st fxSource fxDest
      ["C:", "dst", ".syncdog"] fxA ["a"] 2 rfl rfl rfl rfl rfl).2 9 false
     rfl (by decide) (by decide) (by decide) (by decide) (by decide)⟩

/-- Claim C1 witness: a size-4 file stable at timer fire — the copy
dispatches and this time the entry *is* removed. -/
theorem C1_witness :
    (let r := FileHandler.check_copying_complete fx1wfs fx1wst .created fxA
     r.2.2.2 = none ∧
     r.2.2.1 = [.copyFile fxA ["C:", "dst", "a"]] ∧
     r.1.lookup ["C:", "dst", "a"] = some (.file 4 false) ∧
     ((4 : Nat) ≠ 0 → alookup r.2.1.copying_files fxA = none) ∧
     ((4 : Nat) = 0 → alookup r.2.1.copying_files fxA = some 0)) ∧
    FileHandler.check_copying_complete fx1wfs fx1wst .modified fxA =
      FileHandler.sync_file fx1wfs fx1wst fxA :=
  C1_stable_dispatch_amended fx1wfs fx1wst fxSource fxDest fxA ["a"] 4
    rfl rfl rfl rfl rfl rfl rfl

end SyncDog
